import Mathlib

/-! MCP Registry browser client (`frontend/src/App.jsx`)

A shallow embedding of the `App` component: its nine `useState` slots, the
two asynchronous fetch routines (each split at its `await` into the part that
runs when the handler is called and the part that runs when the promise
settles), the event handlers, and the pure helpers that compute the install
command and the install configuration object.

JSON data coming from the catalog API is modelled by records with optional
fields: `none` stands for a property that is missing (JavaScript
`undefined`).  A string is "truthy" when it is present and non-empty, as in
JavaScript.
-/

namespace MCPRegistry

/-! ## Data model -/

/-- One element of `server.packages`; only the properties read by `App.jsx`. -/
structure Package where
  registry_type : Option String
  identifier : Option String
  version : Option String
  type : Option String
  command : Option String
  args : Option (List String)
deriving DecidableEq, Repr

/-- A catalog entry as delivered in `data.servers`.  The field `officialId`
is the value of `server._meta?.['io.modelcontextprotocol.registry/official']?.id`. -/
structure Server where
  name : String
  packages : Option (List Package)
  officialId : Option String
deriving DecidableEq, Repr

/-- The `data.pagination` object; the initial value `{}` has no property. -/
structure Pagination where
  current_page : Option Int
  total_pages : Option Int
  has_prev : Option Bool
  has_next : Option Bool
deriving DecidableEq, Repr

/-- The document returned by `GET /api/servers/{id}`, with the properties
the modal reads. -/
structure Detail where
  officialId : Option String
  description : Option String
  version : Option String
  status : Option String
  packages : Option (List Package)
deriving DecidableEq, Repr

/-- A non-null JSON body of the list endpoint: `data.servers` and
`data.pagination`, each possibly missing. -/
structure ListData where
  servers : Option (List Server)
  pagination : Option Pagination
deriving DecidableEq, Repr

/-- How `await fetch(url)` followed by `await response.json()` can end.
The HTTP status is carried along although `App.jsx` never reads it. -/
inductive FetchOutcome (α : Type) where
  /-- the promise of `fetch` rejects: the request did not complete -/
  | rejected : FetchOutcome α
  /-- a response arrived but `response.json()` rejects -/
  | notJson (status : Nat) : FetchOutcome α
  /-- the body parses to JSON `null` -/
  | jsonNull (status : Nat) : FetchOutcome α
  /-- the body parses to a non-null value -/
  | json (status : Nat) (data : α) : FetchOutcome α
deriving Repr

/-! ## JavaScript string helpers -/

/-- JavaScript truthiness of a possibly missing string. -/
def truthy : Option String → Bool
  | some s => s ≠ ""
  | none => false

/-- The value of `a || b` for a possibly missing string `a`. -/
def orElse (a : Option String) (b : String) : String :=
  match a with
  | some s => if s ≠ "" then s else b
  | none => b

/-- Interpolation `${x}` of a possibly missing string inside a template
literal. -/
def interp : Option String → String
  | some s => s
  | none => "undefined"

/-- White space and line terminators removed by `String.prototype.trim`. -/
def isJsWhiteSpace (c : Char) : Bool :=
  let n := c.toNat
  n = 0x09 || n = 0x0A || n = 0x0B || n = 0x0C || n = 0x0D || n = 0x20 ||
  n = 0xA0 || n = 0x1680 || (0x2000 ≤ n && n ≤ 0x200A) ||
  n = 0x2028 || n = 0x2029 || n = 0x202F || n = 0x205F || n = 0x3000 ||
  n = 0xFEFF

/-- The characters of `s.trim()`. -/
def jsTrimChars (cs : List Char) : List Char :=
  ((cs.dropWhile isJsWhiteSpace).reverse.dropWhile isJsWhiteSpace).reverse

/-- The method `String.prototype.trim`. -/
def jsTrim (s : String) : String :=
  String.mk (jsTrimChars s.data)

/-! ## Derived-view helpers -/

/-- The function `getInstallCommand` (lines 94-104). -/
def getInstallCommand (server : Server) : String :=
  match server.packages with
  | some (pkg :: _) =>
    if pkg.registry_type = some "npm" then
      "npm install " ++ interp pkg.identifier
    else if pkg.registry_type = some "pypi" then
      "pip install " ++ interp pkg.identifier
    else server.name
  | _ => server.name

/-- The object literal passed to `JSON.stringify` for a package (lines
316-320 and 322-326). -/
structure InstallConfig where
  type : String
  command : String
  args : List String
deriving DecidableEq, Repr

/-- The default of `args`:
the array with `'-y'` and the identifier, followed by `@version` when
`pkg.version` is truthy. -/
def defaultArgs (pkg : Package) : List String :=
  ["-y", interp pkg.identifier ++ (if truthy pkg.version then "@" ++ interp pkg.version else "")]

/-- The package-command configuration object of the modal. -/
def installConfig (pkg : Package) : InstallConfig :=
  { type := orElse pkg.type "stdio"
    command := orElse pkg.command "npx"
    args := match pkg.args with
      | some a => a
      | none => defaultArgs pkg }

/-- The guard `(pkg.command || pkg.args)` under which the configuration is
rendered; an array is always truthy. -/
def configShown (pkg : Package) : Bool :=
  truthy pkg.command || pkg.args.isSome

/-! ## Query parameters of the list request -/

/-- The entries of the `URLSearchParams` object that `fetchServers` builds
(lines 23-30). -/
def buildParams (page : Int) (search : String) : List (String × String) :=
  let params := [("page", toString page), ("limit", "5")]
  if jsTrim search ≠ "" then
    params ++ [("search", jsTrim search)]
  else params

/-! ## Component state -/

/-- The nine `useState` slots of `App` (lines 10-18).  For `servers` and
`pagination` the value `none` is JavaScript `undefined`; for
`selectedServer` and `serverDetails` it is `null`. -/
structure AppState where
  servers : Option (List Server)
  loading : Bool
  searchQuery : String
  currentPage : Int
  pagination : Option Pagination
  searchLoading : Bool
  selectedServer : Option Server
  serverDetails : Option Detail
  detailsLoading : Bool
deriving DecidableEq, Repr

/-- A list request that has been sent and not yet settled. -/
structure ListRequest where
  id : Nat
  params : List (String × String)
deriving DecidableEq, Repr

/-- A detail request for `/api/servers/${serverId}` that has been sent and
not yet settled. -/
structure DetailRequest where
  id : Nat
  serverId : String
deriving DecidableEq, Repr

/-- The component state together with the promises that are still pending.
The sequence numbers are bookkeeping of the environment (the order in which
requests were sent); the component itself stores none of them. -/
structure World where
  app : AppState
  nextReq : Nat
  listInFlight : List ListRequest
  detailInFlight : List DetailRequest
deriving DecidableEq, Repr

/-- The initial values given to `useState`. -/
def AppState.init : AppState :=
  { servers := some []
    loading := true
    searchQuery := ""
    currentPage := 1
    pagination := some { current_page := none, total_pages := none, has_prev := none, has_next := none }
    searchLoading := false
    selectedServer := none
    serverDetails := none
    detailsLoading := false }

/-- The component right after its first render, before the mount effect. -/
def World.init : World :=
  { app := AppState.init, nextReq := 0, listInFlight := [], detailInFlight := [] }

/-! ## The list fetch -/

/-- The part of `fetchServers(page, search)` before `await fetch(...)`
(lines 21-32): raise `searchLoading`, build the parameters, send. -/
def fetchServersStart (w : World) (page : Int) (search : String) : World :=
  { w with
    app := { w.app with searchLoading := true }
    nextReq := w.nextReq + 1
    listInFlight := w.listInFlight ++ [{ id := w.nextReq, params := buildParams page search }] }

/-- The part of `fetchServers` after the awaits (lines 33-42).  Only a
non-null JSON body reaches `setServers(data.servers)` and
`setPagination(data.pagination)`; a rejected `fetch`, a rejected
`response.json()` and the `TypeError` of `null.servers` go to `catch`.
The `finally` block always runs. -/
def fetchServersSettle (a : AppState) (o : FetchOutcome ListData) : AppState :=
  let a1 : AppState :=
    match o with
    | FetchOutcome.json _ data => { a with servers := data.servers, pagination := data.pagination }
    | _ => a
  { a1 with loading := false, searchLoading := false }

/-- The mount effect `useEffect(() => { fetchServers() }, [])` with the
default arguments `page = 1`, `search = ''`. -/
def mount (w : World) : World :=
  fetchServersStart w 1 ""

/-- The `onChange` handler of the search input. -/
def setSearchQuery (w : World) (text : String) : World :=
  { w with app := { w.app with searchQuery := text } }

/-- The handler `handleSearch` (lines 49-53). -/
def handleSearch (w : World) : World :=
  fetchServersStart { w with app := { w.app with currentPage := 1 } } 1 w.app.searchQuery

/-- The handler `handlePageChange` (lines 55-58). -/
def handlePageChange (w : World) (newPage : Int) : World :=
  fetchServersStart { w with app := { w.app with currentPage := newPage } } newPage w.app.searchQuery

/-- Rendering `App` throws a `TypeError`: once `loading` is false the list
branch evaluates `servers.map(...)` (line 149) and `pagination.total_pages`
(line 202), which throw when `servers` or `pagination` is `undefined`.  The
file has no error boundary, so React then unmounts the component: nothing is
displayed any more and later calls of the setters change nothing. -/
def renderThrows (a : AppState) : Bool :=
  !a.loading && (a.servers.isNone || a.pagination.isNone)

/-- Both list slots hold a value, so the list branch can be rendered. -/
def slotsDefined (a : AppState) : Bool :=
  a.servers.isSome && a.pagination.isSome

/-- A JSON body that has both `servers` and `pagination`. -/
def bodyComplete (d : ListData) : Bool :=
  d.servers.isSome && d.pagination.isSome

/-- Whether the pagination block is on screen (lines 141, 149 and 202): the
list branch is rendered when `loading` is false, and the block when
`pagination.total_pages > 1`.  With `servers` or `pagination` undefined the
render throws, so no control exists. -/
def paginationShown (a : AppState) : Bool :=
  !a.loading && a.servers.isSome &&
  match a.pagination with
  | some p =>
    (match p.total_pages with
     | some t => decide (t > 1)
     | none => false)
  | none => false

/-- The Previous button is clickable: `disabled={!pagination.has_prev}`. -/
def prevEnabled (a : AppState) : Bool :=
  paginationShown a &&
  match a.pagination with
  | some p => p.has_prev == some true
  | none => false

/-- The Next button is clickable: `disabled={!pagination.has_next}`. -/
def nextEnabled (a : AppState) : Bool :=
  paginationShown a &&
  match a.pagination with
  | some p => p.has_next == some true
  | none => false

/-- A click on Previous (line 205); `none` when the button cannot be
clicked. -/
def clickPrevious (w : World) : Option World :=
  if prevEnabled w.app then some (handlePageChange w (w.app.currentPage - 1)) else none

/-- A click on Next (line 218); `none` when the button cannot be clicked. -/
def clickNext (w : World) : Option World :=
  if nextEnabled w.app then some (handlePageChange w (w.app.currentPage + 1)) else none

/-! ## The detail fetch and the modal -/

/-- The part of `fetchServerDetails(serverId)` before `await fetch(...)`
(lines 69-71). -/
def fetchServerDetailsStart (w : World) (serverId : String) : World :=
  { w with
    app := { w.app with detailsLoading := true }
    nextReq := w.nextReq + 1
    detailInFlight := w.detailInFlight ++ [{ id := w.nextReq, serverId := serverId }] }

/-- The part of `fetchServerDetails` after the awaits (lines 72-78):
`setServerDetails(data)` for every parsed body, JSON `null` included; the
`catch` block only logs; `finally` clears `detailsLoading`. -/
def fetchServerDetailsSettle (a : AppState) (o : FetchOutcome Detail) : AppState :=
  let a1 : AppState :=
    match o with
    | FetchOutcome.json _ data => { a with serverDetails := some data }
    | FetchOutcome.jsonNull _ => { a with serverDetails := none }
    | _ => a
  { a1 with detailsLoading := false }

/-- The handler `openServerDetails` (lines 81-87). -/
def openServerDetails (w : World) (server : Server) : World :=
  let w1 : World := { w with app := { w.app with selectedServer := some server } }
  match server.officialId with
  | some serverId => if serverId ≠ "" then fetchServerDetailsStart w1 serverId else w1
  | none => w1

/-- The handler `closeServerDetails` (lines 89-92). -/
def closeServerDetails (w : World) : World :=
  { w with app := { w.app with selectedServer := none, serverDetails := none } }

/-- What the modal body shows (lines 240 and 275-367). -/
inductive ModalBody where
  | closed
  | spinner
  | details (d : Detail)
  | failedMessage
deriving DecidableEq, Repr

/-- The conditional rendering of the modal body. -/
def modalBody (a : AppState) : ModalBody :=
  match a.selectedServer with
  | none => ModalBody.closed
  | some _ =>
    if a.detailsLoading then ModalBody.spinner
    else match a.serverDetails with
      | some d => ModalBody.details d
      | none => ModalBody.failedMessage

/-! ## Events and runs -/

/-- Everything that can happen to the component: a handler call, a click on
a pagination button, or the settling of a pending request. -/
inductive Event where
  | mount
  | setSearchQuery (text : String)
  | handleSearch
  | handlePageChange (newPage : Int)
  | clickPrevious
  | clickNext
  | listResponse (req : Nat) (o : FetchOutcome ListData)
  | openServerDetails (server : Server)
  | closeServerDetails
  | detailResponse (req : Nat) (o : FetchOutcome Detail)

/-- One event on the mounted component.  A response can only settle a
request that is pending, and a disabled button cannot be clicked: such events
give `none`.  The state updates of one settled fetch are applied together
before the next render. -/
def stepMounted (w : World) : Event → Option World
  | Event.mount => some (mount w)
  | Event.setSearchQuery text => some (setSearchQuery w text)
  | Event.handleSearch => some (handleSearch w)
  | Event.handlePageChange n => some (handlePageChange w n)
  | Event.clickPrevious => clickPrevious w
  | Event.clickNext => clickNext w
  | Event.listResponse req o =>
    if w.listInFlight.any (fun r => r.id == req) then
      some { w with
        app := fetchServersSettle w.app o
        listInFlight := w.listInFlight.filter (fun r => r.id != req) }
    else none
  | Event.openServerDetails server => some (openServerDetails w server)
  | Event.closeServerDetails => some (closeServerDetails w)
  | Event.detailResponse req o =>
    if w.detailInFlight.any (fun r => r.id == req) then
      some { w with
        app := fetchServerDetailsSettle w.app o
        detailInFlight := w.detailInFlight.filter (fun r => r.id != req) }
    else none

/-- One event after the component has been unmounted by a render error:
there is no input, button or modal left, so no handler can be called; a
pending request still settles, but its setters change nothing. -/
def stepUnmounted (w : World) : Event → Option World
  | Event.listResponse req _ =>
    if w.listInFlight.any (fun r => r.id == req) then
      some { w with listInFlight := w.listInFlight.filter (fun r => r.id != req) }
    else none
  | Event.detailResponse req _ =>
    if w.detailInFlight.any (fun r => r.id == req) then
      some { w with detailInFlight := w.detailInFlight.filter (fun r => r.id != req) }
    else none
  | _ => none

/-- One event.  The component is unmounted exactly when its state makes the
render throw: that state is reached by the update that caused the error and
is never changed afterwards. -/
def step (w : World) (e : Event) : Option World :=
  if renderThrows w.app then stepUnmounted w e else stepMounted w e

/-- A sequence of events, in the order in which they happen. -/
def run (w : World) : List Event → Option World
  | [] => some w
  | e :: es =>
    match step w e with
    | some w1 => run w1 es
    | none => none

/-- The body that an event hands to `setServers` and `setPagination`, if
any: only a list response with a non-null JSON body does. -/
def listBody : Event → Option ListData
  | Event.listResponse _ (FetchOutcome.json _ d) => some d
  | _ => none

/-- The body of the last list response, in arrival order, that reached
`setServers`. -/
def lastAppliedList : List Event → Option ListData
  | [] => none
  | e :: es =>
    match lastAppliedList es with
    | some d => some d
    | none => listBody e

/-- The first list body, in arrival order, that lacks `servers` or
`pagination`: the body whose arrival makes the render throw. -/
def firstIncomplete : List Event → Option ListData
  | [] => none
  | e :: es =>
    match listBody e with
    | some d => if bodyComplete d then firstIncomplete es else some d
    | none => firstIncomplete es

/-- What `serverDetails` holds after a detail response `o` has settled when
it held `prev` before: a parsed body replaces it, a failure leaves it. -/
def storedDetail (o : FetchOutcome Detail) (prev : Option Detail) : Option Detail :=
  match o with
  | FetchOutcome.json _ d => some d
  | FetchOutcome.jsonNull _ => none
  | _ => prev

/-- The invariant of the pagination object stated by the catalog API:
`has_prev` tells whether `current_page > 1` and `has_next` whether
`current_page < total_pages`. -/
def paginationInvariant : Option Pagination → Bool
  | some p =>
    match p.current_page, p.total_pages with
    | some c, some t => p.has_prev == some (decide (c > 1)) && p.has_next == some (decide (c < t))
    | _, _ => false
  | none => false

/-! ## Concrete data used in the examples below -/

/-- An entry whose first package is an npm package. -/
def fooServer : Server :=
  { name := "io.example/foo"
    packages := some [{ registry_type := some "npm", identifier := some "foo", version := some "1.2.0",
                        type := none, command := none, args := none }]
    officialId := some "id-foo" }

/-- A package whose `type` is present but is the empty string. -/
def emptyTypePkg : Package :=
  { registry_type := some "npm", identifier := some "foo", version := none,
    type := some "", command := some "node", args := none }

/-- An entry with a registry identity. -/
def srvA : Server :=
  { name := "io.example/alpha", packages := none, officialId := some "id-a" }

/-- A second entry with a registry identity. -/
def srvB : Server :=
  { name := "io.example/beta", packages := none, officialId := some "id-b" }

/-- An entry without a registry identity. -/
def srvNoId : Server :=
  { name := "io.example/anonymous", packages := none, officialId := none }

/-- An entry of the second page. -/
def srvC : Server :=
  { name := "io.example/gamma", packages := none, officialId := some "id-c" }

/-- An entry of the third page. -/
def srvD : Server :=
  { name := "io.example/delta", packages := none, officialId := some "id-d" }

/-- Page 1 of 3 as the catalog API answers it. -/
def page1 : ListData :=
  { servers := some [srvA, srvB, srvNoId]
    pagination := some { current_page := some 1, total_pages := some 3,
                         has_prev := some false, has_next := some true } }

/-- Page 2 of 3. -/
def page2 : ListData :=
  { servers := some [srvC]
    pagination := some { current_page := some 2, total_pages := some 3,
                         has_prev := some true, has_next := some true } }

/-- Page 3 of 3. -/
def page3 : ListData :=
  { servers := some [srvD]
    pagination := some { current_page := some 3, total_pages := some 3,
                         has_prev := some true, has_next := some false } }

/-- The JSON body of an error answer, an object that only carries a `detail`
message: it has neither `servers` nor `pagination`. -/
def errorBody : ListData :=
  { servers := none, pagination := none }

/-- A body of the expected shape whose pagination flags contradict its page
numbers. -/
def inconsistentPage : ListData :=
  { servers := some [srvA]
    pagination := some { current_page := some 1, total_pages := some 3,
                         has_prev := some true, has_next := some false } }

/-- The detail document of `srvA`. -/
def detA : Detail :=
  { officialId := some "id-a", description := some "alpha server", version := some "1.0.0",
    status := some "active", packages := none }

/-- The detail document of `srvB`. -/
def detB : Detail :=
  { officialId := some "id-b", description := some "beta server", version := some "2.0.0",
    status := some "active", packages := none }

/-- The mount effect followed by the arrival of page 1. -/
def loadTrace : List Event :=
  [Event.mount, Event.listResponse 0 (FetchOutcome.json 200 page1)]

/-- The component after page 1 has been displayed. -/
def loadedWorld : World :=
  { app :=
      { servers := page1.servers
        loading := false
        searchQuery := ""
        currentPage := 1
        pagination := page1.pagination
        searchLoading := false
        selectedServer := none
        serverDetails := none
        detailsLoading := false }
    nextReq := 1
    listInFlight := []
    detailInFlight := [] }

/-- Two clicks on Next while page 1 is displayed, then the answer for page 3
arrives before the answer for page 2. -/
def racedTrace : List Event :=
  [Event.clickNext, Event.clickNext,
   Event.listResponse 2 (FetchOutcome.json 200 page3),
   Event.listResponse 1 (FetchOutcome.json 200 page2)]

/-- The component after `racedTrace`, started from `loadedWorld`. -/
def racedWorld : World :=
  { app :=
      { servers := page2.servers
        loading := false
        searchQuery := ""
        currentPage := 3
        pagination := page2.pagination
        searchLoading := false
        selectedServer := none
        serverDetails := none
        detailsLoading := false }
    nextReq := 3
    listInFlight := []
    detailInFlight := [] }

/-- Two clicks on Next while page 1 is displayed; the first request is
answered with status 500 and an error object, the second with page 3. -/
def crashTrace : List Event :=
  [Event.clickNext, Event.clickNext,
   Event.listResponse 1 (FetchOutcome.json 500 errorBody),
   Event.listResponse 2 (FetchOutcome.json 200 page3)]

/-- The component after `crashTrace`, started from `loadedWorld`: unmounted,
with the state that made the render throw. -/
def crashedWorld : World :=
  { app :=
      { servers := none
        loading := false
        searchQuery := ""
        currentPage := 3
        pagination := none
        searchLoading := false
        selectedServer := none
        serverDetails := none
        detailsLoading := false }
    nextReq := 3
    listInFlight := []
    detailInFlight := [] }

/-- The component after page 2 was requested from `loadedWorld` and the
request was rejected: page 1 is still displayed. -/
def rejectedWorld : World :=
  { loadedWorld with nextReq := 2 }

/-! ## Properties of the pure helpers -/

theorem jsTrimChars_eq_nil_iff (cs : List Char) :
    jsTrimChars cs = [] ↔ ∀ c ∈ cs, isJsWhiteSpace c = true := by
  unfold jsTrimChars
  rw [List.reverse_eq_nil_iff, List.dropWhile_eq_nil_iff]
  constructor
  · intro h
    by_cases hd : cs.dropWhile isJsWhiteSpace = []
    · exact List.dropWhile_eq_nil_iff.mp hd
    · exfalso
      have hne : cs.dropWhile isJsWhiteSpace ≠ [] := hd
      have hhead := List.head_dropWhile_not isJsWhiteSpace cs hne
      have hmem : (cs.dropWhile isJsWhiteSpace).head hne ∈ (cs.dropWhile isJsWhiteSpace).reverse :=
        List.mem_reverse.mpr (List.head_mem hne)
      have := h _ hmem
      simp [this] at hhead
  · intro h x hx
    have hnil : cs.dropWhile isJsWhiteSpace = [] := List.dropWhile_eq_nil_iff.mpr h
    rw [hnil] at hx
    simp at hx

theorem jsTrim_eq_empty_iff (s : String) :
    jsTrim s = "" ↔ ∀ c ∈ s.data, isJsWhiteSpace c = true := by
  rw [← jsTrimChars_eq_nil_iff]
  unfold jsTrim
  constructor
  · intro h
    have := congrArg String.data h
    simpa using this
  · intro h
    rw [h]

theorem dropWhile_append_cons (p : Char → Bool) (pre : List Char) (x : Char) (xs : List Char)
    (hpre : ∀ c ∈ pre, p c = true) (hx : p x = false) :
    (pre ++ x :: xs).dropWhile p = x :: xs := by
  induction pre with
  | nil => simp [List.dropWhile, hx]
  | cons y ys ih =>
    have hy : p y = true := hpre y (List.mem_cons_self y ys)
    have hys : ∀ c ∈ ys, p c = true := fun c hc => hpre c (List.mem_cons_of_mem y hc)
    simp [List.dropWhile, hy, ih hys]

theorem jsTrimChars_decompose (pre core post : List Char) (a b : Char)
    (hpre : ∀ c ∈ pre, isJsWhiteSpace c = true) (hpost : ∀ c ∈ post, isJsWhiteSpace c = true)
    (ha : core.head? = some a) (hb : core.getLast? = some b)
    (hwa : isJsWhiteSpace a = false) (hwb : isJsWhiteSpace b = false) :
    jsTrimChars (pre ++ core ++ post) = core := by
  have hlast : core.dropLast ++ [b] = core := List.dropLast_append_getLast? b (by simp [hb])
  cases core with
  | nil => simp at ha
  | cons x t =>
    simp only [List.head?_cons, Option.some.injEq] at ha
    subst ha
    unfold jsTrimChars
    have h1 : (pre ++ x :: t ++ post).dropWhile isJsWhiteSpace = x :: (t ++ post) := by
      have := dropWhile_append_cons isJsWhiteSpace pre x (t ++ post) hpre hwa
      simpa [List.append_assoc] using this
    rw [h1]
    have h2 : (x :: (t ++ post)).reverse = post.reverse ++ b :: (x :: t).dropLast.reverse := by
      have : x :: (t ++ post) = ((x :: t).dropLast ++ [b]) ++ post := by rw [hlast]; rfl
      rw [this]
      simp
    rw [h2, dropWhile_append_cons isJsWhiteSpace post.reverse b _ (by simpa using hpost) hwb]
    simpa using hlast

theorem jsTrimChars_cover (cs : List Char) :
    (∀ c ∈ cs, isJsWhiteSpace c = true) ∨
    ∃ (pre core post : List Char) (a b : Char),
      cs = pre ++ core ++ post ∧
      (∀ c ∈ pre, isJsWhiteSpace c = true) ∧ (∀ c ∈ post, isJsWhiteSpace c = true) ∧
      core.head? = some a ∧ core.getLast? = some b ∧
      isJsWhiteSpace a = false ∧ isJsWhiteSpace b = false := by
  by_cases hall : ∀ c ∈ cs, isJsWhiteSpace c = true
  · exact Or.inl hall
  · right
    have hr : cs.dropWhile isJsWhiteSpace ≠ [] := by
      intro h
      exact hall (List.dropWhile_eq_nil_iff.mp h)
    have hrhead := List.head_dropWhile_not isJsWhiteSpace cs hr
    have hm : (cs.dropWhile isJsWhiteSpace).reverse.dropWhile isJsWhiteSpace ≠ [] := by
      intro h
      have h1 := List.dropWhile_eq_nil_iff.mp h _ (List.mem_reverse.mpr (List.head_mem hr))
      simp [h1] at hrhead
    have hmhead := List.head_dropWhile_not isJsWhiteSpace (cs.dropWhile isJsWhiteSpace).reverse hm
    have hsplit : cs.dropWhile isJsWhiteSpace =
        ((cs.dropWhile isJsWhiteSpace).reverse.dropWhile isJsWhiteSpace).reverse ++
        ((cs.dropWhile isJsWhiteSpace).reverse.takeWhile isJsWhiteSpace).reverse := by
      rw [← List.reverse_append, List.takeWhile_append_dropWhile, List.reverse_reverse]
    have hcore : ((cs.dropWhile isJsWhiteSpace).reverse.dropWhile isJsWhiteSpace).reverse ≠ [] := by
      simpa using hm
    refine ⟨cs.takeWhile isJsWhiteSpace,
      ((cs.dropWhile isJsWhiteSpace).reverse.dropWhile isJsWhiteSpace).reverse,
      ((cs.dropWhile isJsWhiteSpace).reverse.takeWhile isJsWhiteSpace).reverse,
      (cs.dropWhile isJsWhiteSpace).head hr,
      ((cs.dropWhile isJsWhiteSpace).reverse.dropWhile isJsWhiteSpace).head hm,
      ?_, ?_, ?_, ?_, ?_, hrhead, hmhead⟩
    · rw [List.append_assoc, ← hsplit, List.takeWhile_append_dropWhile]
    · intro c hc
      exact List.mem_takeWhile_imp hc
    · intro c hc
      exact List.mem_takeWhile_imp (List.mem_reverse.mp hc)
    · have h1 : (cs.dropWhile isJsWhiteSpace).head? = some ((cs.dropWhile isJsWhiteSpace).head hr) :=
        List.head?_eq_head hr
      have h2 : (((cs.dropWhile isJsWhiteSpace).reverse.dropWhile isJsWhiteSpace).reverse ++
            ((cs.dropWhile isJsWhiteSpace).reverse.takeWhile isJsWhiteSpace).reverse).head? =
          ((cs.dropWhile isJsWhiteSpace).reverse.dropWhile isJsWhiteSpace).reverse.head? :=
        List.head?_append_of_ne_nil _ hcore
      rw [← h2, ← hsplit]
      exact h1
    · rw [List.getLast?_reverse, List.head?_eq_head hm]

/-- C4: the parameters built by `fetchServers` are `page` and `limit=5`,
followed by a `search` entry exactly when the search text is not made of
white space only.  A text that is empty or white space only gives the two
entries alone; a text that consists of leading white space, a core that
starts and ends with a character that is not white space, and trailing white
space gives the third entry `search` with the core as its value.  Every text
is of one of these two forms. -/
theorem buildParams_search_omission (page : Int) (search : String) :
    ((∀ c ∈ search.data, isJsWhiteSpace c = true) →
      buildParams page search = [("page", toString page), ("limit", "5")]) ∧
    (∀ (pre core post : List Char) (a b : Char),
      search.data = pre ++ core ++ post →
      (∀ c ∈ pre, isJsWhiteSpace c = true) → (∀ c ∈ post, isJsWhiteSpace c = true) →
      core.head? = some a → core.getLast? = some b →
      isJsWhiteSpace a = false → isJsWhiteSpace b = false →
      buildParams page search =
        [("page", toString page), ("limit", "5"), ("search", String.mk core)]) ∧
    ((∀ c ∈ search.data, isJsWhiteSpace c = true) ∨
      ∃ (pre core post : List Char) (a b : Char),
        search.data = pre ++ core ++ post ∧
        (∀ c ∈ pre, isJsWhiteSpace c = true) ∧ (∀ c ∈ post, isJsWhiteSpace c = true) ∧
        core.head? = some a ∧ core.getLast? = some b ∧
        isJsWhiteSpace a = false ∧ isJsWhiteSpace b = false) := by
  refine ⟨?_, ?_, jsTrimChars_cover search.data⟩
  · intro hws
    have h := (jsTrim_eq_empty_iff search).mpr hws
    simp [buildParams, h]
  · intro pre core post a b hdata hpre hpost ha hb hwa hwb
    have htrim : jsTrim search = String.mk core := by
      unfold jsTrim
      rw [hdata, jsTrimChars_decompose pre core post a b hpre hpost ha hb hwa hwb]
    have hne : String.mk core ≠ "" := by
      intro h
      have h1 := congrArg String.data h
      have h2 : core = [] := by simpa using h1
      rw [h2] at ha
      simp at ha
    simp [buildParams, htrim, hne]

/-- Witness of C4: page 2 with the text made of a no-break space, a space,
`foo bar`, a tab and a line feed sends `search=foo bar`; page 2 with a text
of white space only sends no `search` entry. -/
theorem buildParams_search_omission_witness :
    buildParams 2 "\u00A0 foo bar\t\n" = [("page", "2"), ("limit", "5"), ("search", "foo bar")] ∧
    buildParams 2 "  \t " = [("page", "2"), ("limit", "5")] :=
  ⟨(buildParams_search_omission 2 "\u00A0 foo bar\t\n").2.1
      ['\u00A0', ' '] ['f', 'o', 'o', ' ', 'b', 'a', 'r'] ['\t', '\n'] 'f' 'r'
      rfl (by decide) (by decide) rfl rfl (by decide) (by decide),
   (buildParams_search_omission 2 "  \t ").1 (by decide)⟩

/-- C5: `getInstallCommand` looks at the first package only.  With first
package identifier `foo` the result is `npm install foo` for kind `npm`,
`pip install foo` for kind `pypi`, and the entry's name for every other kind;
with `packages` missing or empty the result is the entry's name. -/
theorem getInstallCommand_first_package (server : Server) :
    (∀ pkg rest foo, server.packages = some (pkg :: rest) → pkg.identifier = some foo →
      (pkg.registry_type = some "npm" → getInstallCommand server = "npm install " ++ foo) ∧
      (pkg.registry_type = some "pypi" → getInstallCommand server = "pip install " ++ foo) ∧
      (pkg.registry_type ≠ some "npm" → pkg.registry_type ≠ some "pypi" →
        getInstallCommand server = server.name)) ∧
    (server.packages = none ∨ server.packages = some [] → getInstallCommand server = server.name) := by
  constructor
  · intro pkg rest foo hp hid
    unfold getInstallCommand
    rw [hp]
    refine ⟨?_, ?_, ?_⟩
    · intro h
      simp [h, hid, interp]
    · intro h
      simp [h, hid, interp]
    · intro h1 h2
      simp [h1, h2]
  · intro h
    unfold getInstallCommand
    rcases h with h | h <;> rw [h]

/-- Witness of C5: the entry `fooServer` has the npm package `foo` first. -/
theorem getInstallCommand_first_package_witness :
    getInstallCommand fooServer = "npm install " ++ "foo" :=
  ((getInstallCommand_first_package fooServer).1 _ _ "foo" rfl rfl).1 rfl

/-- Counterexample to C8 as stated: a package whose `type` is present (the
empty string) does not get its own `type` in the configuration object; the
operator `||` replaces it by `"stdio"`. -/
theorem installConfig_present_type_counterexample :
    ¬ (∀ (pkg : Package) (t : String), pkg.type = some t → (installConfig pkg).type = t) := by
  intro h
  have h1 := h emptyTypePkg "" rfl
  revert h1
  decide

/-- C8, amended: the configuration object has the fields `type`, `command`,
`args`; `type` is the package's type when that is a non-empty string and
`"stdio"` when it is absent or empty; `command` is the package's command when
that is a non-empty string and `"npx"` when it is absent or empty; `args` is
the package's args when present, and otherwise `["-y", x]` where `x` is the
identifier followed by `@` and the version when the version is a non-empty
string, and the identifier alone when the version is absent or empty. -/
theorem installConfig_defaults (pkg : Package) :
    (∀ t, pkg.type = some t → t ≠ "" → (installConfig pkg).type = t) ∧
    (pkg.type = none ∨ pkg.type = some "" → (installConfig pkg).type = "stdio") ∧
    (∀ c, pkg.command = some c → c ≠ "" → (installConfig pkg).command = c) ∧
    (pkg.command = none ∨ pkg.command = some "" → (installConfig pkg).command = "npx") ∧
    (∀ a, pkg.args = some a → (installConfig pkg).args = a) ∧
    (∀ ident, pkg.args = none → pkg.identifier = some ident →
      (∀ v, pkg.version = some v → v ≠ "" → (installConfig pkg).args = ["-y", ident ++ "@" ++ v]) ∧
      (pkg.version = none ∨ pkg.version = some "" → (installConfig pkg).args = ["-y", ident])) := by
  refine ⟨?_, ?_, ?_, ?_, ?_, ?_⟩
  · intro t ht hne
    simp [installConfig, orElse, ht, hne]
  · intro h
    rcases h with h | h <;> simp [installConfig, orElse, h]
  · intro c hc hne
    simp [installConfig, orElse, hc, hne]
  · intro h
    rcases h with h | h <;> simp [installConfig, orElse, h]
  · intro a ha
    simp [installConfig, ha]
  · intro ident ha hid
    constructor
    · intro v hv hne
      simp [installConfig, ha, defaultArgs, hid, hv, truthy, hne, interp, String.append_assoc]
    · intro h
      rcases h with h | h <;> simp [installConfig, ha, defaultArgs, hid, h, truthy, interp]

/-- Witness of C8 (amended): for `emptyTypePkg`, whose configuration is
rendered, the empty `type` becomes
`"stdio"`, the command `node` is kept, and the missing `args` become
`["-y", "foo"]`. -/
theorem installConfig_defaults_witness :
    configShown emptyTypePkg = true ∧
    (installConfig emptyTypePkg).type = "stdio" ∧
    (installConfig emptyTypePkg).command = "node" ∧
    (installConfig emptyTypePkg).args = ["-y", "foo"] :=
  ⟨by decide,
   (installConfig_defaults emptyTypePkg).2.1 (Or.inr rfl),
   (installConfig_defaults emptyTypePkg).2.2.1 "node" rfl (by decide),
   ((installConfig_defaults emptyTypePkg).2.2.2.2.2 "foo" rfl rfl).2 (Or.inl rfl)⟩

/-! ## The list slots follow the arrival order of the responses -/

theorem slotsDefined_not_throws (a : AppState) (h : slotsDefined a = true) :
    renderThrows a = false := by
  simp only [slotsDefined, Bool.and_eq_true] at h
  cases hs : a.servers <;> cases hp : a.pagination <;> simp_all [renderThrows]

theorem step_of_mounted (w : World) (e : Event) (hm : renderThrows w.app = false) :
    step w e = stepMounted w e := by
  simp [step, hm]

theorem step_of_unmounted (w : World) (e : Event) (hc : renderThrows w.app = true) :
    step w e = stepUnmounted w e := by
  simp [step, hc]

theorem step_unmounted_app (w w1 : World) (e : Event)
    (hc : renderThrows w.app = true) (h : step w e = some w1) : w1.app = w.app := by
  rw [step_of_unmounted w e hc] at h
  cases e <;> simp only [stepUnmounted] at h
  case listResponse req o =>
    split at h
    · simp only [Option.some.injEq] at h
      subst h
      rfl
    · simp at h
  case detailResponse req o =>
    split at h
    · simp only [Option.some.injEq] at h
      subst h
      rfl
    · simp at h
  all_goals simp at h

theorem run_unmounted_app (es : List Event) :
    ∀ (w w1 : World), renderThrows w.app = true → run w es = some w1 → w1.app = w.app := by
  induction es with
  | nil =>
    intro w w1 _ h
    simp [run] at h
    subst h
    rfl
  | cons e es ih =>
    intro w w1 hc h
    simp only [run] at h
    cases hstep : step w e with
    | none => simp [hstep] at h
    | some w0 =>
      simp only [hstep] at h
      have h0 := step_unmounted_app w w0 e hc hstep
      have h1 := ih w0 w1 (by rw [h0]; exact hc) h
      rw [h1, h0]

theorem step_mounted_slots (w w1 : World) (e : Event)
    (hm : renderThrows w.app = false) (h : step w e = some w1) :
    w1.app.servers =
      (match listBody e with
       | some d => d.servers
       | none => w.app.servers) ∧
    w1.app.pagination =
      (match listBody e with
       | some d => d.pagination
       | none => w.app.pagination) ∧
    (match listBody e with
     | some _ => w1.app.loading = false
     | none => w1.app.loading = false ∨ w1.app.loading = w.app.loading) := by
  rw [step_of_mounted w e hm] at h
  cases e with
  | mount =>
    simp [stepMounted, mount, fetchServersStart] at h; subst h; exact ⟨rfl, rfl, Or.inr rfl⟩
  | setSearchQuery t =>
    simp [stepMounted, setSearchQuery] at h; subst h; exact ⟨rfl, rfl, Or.inr rfl⟩
  | handleSearch =>
    simp [stepMounted, handleSearch, fetchServersStart] at h; subst h; exact ⟨rfl, rfl, Or.inr rfl⟩
  | handlePageChange n =>
    simp [stepMounted, handlePageChange, fetchServersStart] at h; subst h
    exact ⟨rfl, rfl, Or.inr rfl⟩
  | clickPrevious =>
    simp only [stepMounted, clickPrevious] at h
    split at h
    · simp [handlePageChange, fetchServersStart] at h; subst h; exact ⟨rfl, rfl, Or.inr rfl⟩
    · simp at h
  | clickNext =>
    simp only [stepMounted, clickNext] at h
    split at h
    · simp [handlePageChange, fetchServersStart] at h; subst h; exact ⟨rfl, rfl, Or.inr rfl⟩
    · simp at h
  | listResponse req o =>
    simp only [stepMounted] at h
    split at h
    · simp only [Option.some.injEq] at h
      subst h
      cases o
      · exact ⟨rfl, rfl, Or.inl rfl⟩
      · exact ⟨rfl, rfl, Or.inl rfl⟩
      · exact ⟨rfl, rfl, Or.inl rfl⟩
      · exact ⟨rfl, rfl, rfl⟩
    · simp at h
  | openServerDetails s =>
    simp only [stepMounted, Option.some.injEq] at h
    subst h
    simp only [listBody]
    unfold openServerDetails
    split
    · split <;> exact ⟨rfl, rfl, Or.inr rfl⟩
    · exact ⟨rfl, rfl, Or.inr rfl⟩
  | closeServerDetails =>
    simp [stepMounted, closeServerDetails] at h; subst h; exact ⟨rfl, rfl, Or.inr rfl⟩
  | detailResponse req o =>
    simp only [stepMounted] at h
    split at h
    · simp only [Option.some.injEq] at h
      subst h
      cases o <;> exact ⟨rfl, rfl, Or.inr rfl⟩
    · simp at h

theorem step_no_body_slots (w w1 : World) (e : Event)
    (hb : listBody e = none) (h : step w e = some w1) :
    w1.app.servers = w.app.servers ∧ w1.app.pagination = w.app.pagination := by
  cases hc : renderThrows w.app with
  | true =>
    rw [step_unmounted_app w w1 e hc h]
    exact ⟨rfl, rfl⟩
  | false =>
    have hs := step_mounted_slots w w1 e hc h
    simp only [hb] at hs
    exact ⟨hs.1, hs.2.1⟩

theorem lastAppliedList_cons_none (e : Event) (es : List Event)
    (h : lastAppliedList (e :: es) = none) : listBody e = none ∧ lastAppliedList es = none := by
  simp only [lastAppliedList] at h
  cases hl : lastAppliedList es with
  | some d => simp [hl] at h
  | none => simpa [hl] using h

theorem run_no_body_slots (es : List Event) :
    ∀ (w w1 : World), lastAppliedList es = none → run w es = some w1 →
      w1.app.servers = w.app.servers ∧ w1.app.pagination = w.app.pagination := by
  induction es with
  | nil =>
    intro w w1 _ h
    simp [run] at h
    subst h
    exact ⟨rfl, rfl⟩
  | cons e es ih =>
    intro w w1 hq h
    simp only [run] at h
    cases hstep : step w e with
    | none => simp [hstep] at h
    | some w0 =>
      simp only [hstep] at h
      obtain ⟨hb, hrest⟩ := lastAppliedList_cons_none e es hq
      have h0 := step_no_body_slots w w0 e hb hstep
      have h1 := ih w0 w1 hrest h
      rw [h1.1, h1.2, h0.1, h0.2]
      exact ⟨rfl, rfl⟩

theorem run_list_slots (es : List Event) :
    ∀ (w w1 : World), slotsDefined w.app = true → run w es = some w1 →
      (firstIncomplete es = none →
        slotsDefined w1.app = true ∧
        w1.app.servers =
          (match lastAppliedList es with
           | some d => d.servers
           | none => w.app.servers) ∧
        w1.app.pagination =
          (match lastAppliedList es with
           | some d => d.pagination
           | none => w.app.pagination)) ∧
      (∀ d, firstIncomplete es = some d →
        renderThrows w1.app = true ∧
        w1.app.servers = d.servers ∧ w1.app.pagination = d.pagination) := by
  induction es with
  | nil =>
    intro w w1 hw h
    simp [run] at h
    subst h
    refine ⟨fun _ => ⟨hw, rfl, rfl⟩, ?_⟩
    intro d hd
    simp [firstIncomplete] at hd
  | cons e es ih =>
    intro w w1 hw h
    simp only [run] at h
    cases hstep : step w e with
    | none => simp [hstep] at h
    | some w0 =>
      simp only [hstep] at h
      have hm := slotsDefined_not_throws w.app hw
      have hone := step_mounted_slots w w0 e hm hstep
      cases hb : listBody e with
      | none =>
        simp only [hb] at hone
        have hw0 : slotsDefined w0.app = true := by
          simp only [slotsDefined, hone.1, hone.2.1]
          exact hw
        have hrest := ih w0 w1 hw0 h
        simp only [firstIncomplete, lastAppliedList, hb]
        refine ⟨?_, hrest.2⟩
        intro hf
        have h3 := hrest.1 hf
        refine ⟨h3.1, ?_, ?_⟩
        · rw [h3.2.1]
          cases lastAppliedList es with
          | some d => rfl
          | none => exact hone.1
        · rw [h3.2.2]
          cases lastAppliedList es with
          | some d => rfl
          | none => exact hone.2.1
      | some d =>
        simp only [hb] at hone
        cases hcomp : bodyComplete d with
        | true =>
          have hw0 : slotsDefined w0.app = true := by
            simp only [slotsDefined, hone.1, hone.2.1]
            exact hcomp
          have hrest := ih w0 w1 hw0 h
          simp only [firstIncomplete, lastAppliedList, hb, hcomp, if_true]
          refine ⟨?_, hrest.2⟩
          intro hf
          have h3 := hrest.1 hf
          refine ⟨h3.1, ?_, ?_⟩
          · rw [h3.2.1]
            cases lastAppliedList es with
            | some d1 => rfl
            | none => exact hone.1
          · rw [h3.2.2]
            cases lastAppliedList es with
            | some d1 => rfl
            | none => exact hone.2.1
        | false =>
          have hc0 : renderThrows w0.app = true := by
            simp only [renderThrows, hone.1, hone.2.1, hone.2.2]
            simp only [bodyComplete] at hcomp
            cases hs : d.servers <;> cases hp : d.pagination <;> simp_all
          have happ := run_unmounted_app es w0 w1 hc0 h
          simp only [firstIncomplete, hb, hcomp]
          refine ⟨fun hf => by simp at hf, ?_⟩
          intro d1 hd1
          simp only [Bool.false_eq_true, if_false, Option.some.injEq] at hd1
          subst hd1
          rw [happ]
          exact ⟨hc0, hone.1, hone.2.1⟩

/-- Counterexample to C1 as stated: page 1 is displayed, Next is clicked
twice (requests 1 and 2, for pages 2 and 3), and the answer to request 2
arrives before the answer to request 1.  When everything has settled the
list and the pagination are those of request 1, not those of request 2 which
was issued last: the late answer to the earlier request has replaced them. -/
theorem list_last_request_wins_counterexample :
    ∃ wIssued wMid wFinal,
      run World.init (loadTrace ++ [Event.clickNext, Event.clickNext]) = some wIssued ∧
      wIssued.listInFlight =
        [{ id := 1, params := [("page", "2"), ("limit", "5")] },
         { id := 2, params := [("page", "3"), ("limit", "5")] }] ∧
      step wIssued (Event.listResponse 2 (FetchOutcome.json 200 page3)) = some wMid ∧
      step wMid (Event.listResponse 1 (FetchOutcome.json 200 page2)) = some wFinal ∧
      wFinal.listInFlight = [] ∧
      wFinal.app.servers = page2.servers ∧
      wFinal.app.pagination = page2.pagination ∧
      wFinal.app.servers ≠ page3.servers ∧
      wFinal.app.pagination ≠ page3.pagination ∧
      wFinal.app ≠ wMid.app :=
  ⟨_, _, _, rfl, rfl, rfl, rfl, rfl, rfl, rfl, by decide, by decide, by decide⟩

/-- C1, amended: the last response wins.  Start from a state with both list
slots defined.  As long as every list response with a non-null JSON body
carried both `servers` and `pagination`, the component stays mounted and the
displayed list and pagination are those of the response that arrived last
among them, whichever request it answers (unchanged when none arrived).  Once
a body without `servers` or without `pagination` has arrived, the render
throws, nothing is displayed any more, and the slots keep the values of that
body whatever arrives later. -/
theorem list_last_arrival_wins (w w1 : World) (es : List Event)
    (hw : slotsDefined w.app = true) (h : run w es = some w1) :
    (firstIncomplete es = none →
      renderThrows w1.app = false ∧
      (∀ d, lastAppliedList es = some d →
        w1.app.servers = d.servers ∧ w1.app.pagination = d.pagination) ∧
      (lastAppliedList es = none →
        w1.app.servers = w.app.servers ∧ w1.app.pagination = w.app.pagination)) ∧
    (∀ d, firstIncomplete es = some d →
      renderThrows w1.app = true ∧
      w1.app.servers = d.servers ∧ w1.app.pagination = d.pagination) := by
  have key := run_list_slots es w w1 hw h
  refine ⟨?_, key.2⟩
  intro hf
  have k := key.1 hf
  refine ⟨slotsDefined_not_throws _ k.1, ?_, ?_⟩
  · intro d hd
    simpa [hd] using k.2
  · intro hn
    simpa [hn] using k.2

/-- Witness of C1 (amended): in `racedTrace` the answer for page 2 arrives
last, and page 2 is what is displayed; in `crashTrace` the error object
arrives first, the render throws, and the later answer for page 3 changes
nothing. -/
theorem list_last_arrival_wins_witness :
    (run loadedWorld racedTrace = some racedWorld ∧
      lastAppliedList racedTrace = some page2 ∧
      racedWorld.app.servers = page2.servers ∧ racedWorld.app.pagination = page2.pagination) ∧
    (run loadedWorld crashTrace = some crashedWorld ∧
      firstIncomplete crashTrace = some errorBody ∧
      renderThrows crashedWorld.app = true ∧
      crashedWorld.app.servers = none ∧ crashedWorld.app.pagination = none) :=
  ⟨⟨rfl, rfl,
    ((list_last_arrival_wins loadedWorld racedWorld racedTrace rfl rfl).1 rfl).2.1 page2 rfl⟩,
   ⟨rfl, rfl, (list_last_arrival_wins loadedWorld crashedWorld crashTrace rfl rfl).2 errorBody rfl⟩⟩

theorem run_append_single (es : List Event) :
    ∀ (w w1 : World) (e : Event), run w (es ++ [e]) = some w1 →
      ∃ w0, run w es = some w0 ∧ step w0 e = some w1 := by
  induction es with
  | nil =>
    intro w w1 e h
    refine ⟨w, rfl, ?_⟩
    simp only [List.nil_append, run] at h
    cases hstep : step w e with
    | none => simp [hstep] at h
    | some w2 => simpa [hstep, run] using h
  | cons x xs ih =>
    intro w w1 e h
    simp only [List.cons_append, run] at h
    cases hstep : step w x with
    | none => simp [hstep] at h
    | some w2 =>
      simp only [hstep] at h
      obtain ⟨w0, h0, h1⟩ := ih w2 w1 e h
      exact ⟨w0, by simp [run, hstep, h0], h1⟩

theorem step_mounted_render (w w1 : World) (e : Event)
    (hm : renderThrows w.app = false) (h : step w e = some w1) :
    (w1.app.searchLoading = false ∧ w1.app.loading = false) ∨
    (w1.app.loading = w.app.loading ∧ w1.app.servers = w.app.servers ∧
      w1.app.pagination = w.app.pagination) := by
  rw [step_of_mounted w e hm] at h
  cases e with
  | mount =>
    simp [stepMounted, mount, fetchServersStart] at h; subst h; exact Or.inr ⟨rfl, rfl, rfl⟩
  | setSearchQuery t =>
    simp [stepMounted, setSearchQuery] at h; subst h; exact Or.inr ⟨rfl, rfl, rfl⟩
  | handleSearch =>
    simp [stepMounted, handleSearch, fetchServersStart] at h; subst h; exact Or.inr ⟨rfl, rfl, rfl⟩
  | handlePageChange n =>
    simp [stepMounted, handlePageChange, fetchServersStart] at h; subst h
    exact Or.inr ⟨rfl, rfl, rfl⟩
  | clickPrevious =>
    simp only [stepMounted, clickPrevious] at h
    split at h
    · simp [handlePageChange, fetchServersStart] at h; subst h; exact Or.inr ⟨rfl, rfl, rfl⟩
    · simp at h
  | clickNext =>
    simp only [stepMounted, clickNext] at h
    split at h
    · simp [handlePageChange, fetchServersStart] at h; subst h; exact Or.inr ⟨rfl, rfl, rfl⟩
    · simp at h
  | listResponse req o =>
    simp only [stepMounted] at h
    split at h
    · simp only [Option.some.injEq] at h
      subst h
      exact Or.inl ⟨rfl, rfl⟩
    · simp at h
  | openServerDetails s =>
    simp only [stepMounted, Option.some.injEq] at h
    subst h
    unfold openServerDetails
    split
    · split <;> exact Or.inr ⟨rfl, rfl, rfl⟩
    · exact Or.inr ⟨rfl, rfl, rfl⟩
  | closeServerDetails =>
    simp [stepMounted, closeServerDetails] at h; subst h; exact Or.inr ⟨rfl, rfl, rfl⟩
  | detailResponse req o =>
    simp only [stepMounted] at h
    split at h
    · simp only [Option.some.injEq] at h
      subst h
      cases o <;> exact Or.inr ⟨rfl, rfl, rfl⟩
    · simp at h

theorem step_crash_flags (w w1 : World) (e : Event)
    (hJ : renderThrows w.app = true → w.app.searchLoading = false ∧ w.app.loading = false)
    (h : step w e = some w1) :
    renderThrows w1.app = true → w1.app.searchLoading = false ∧ w1.app.loading = false := by
  cases hc : renderThrows w.app with
  | true =>
    rw [step_unmounted_app w w1 e hc h]
    exact hJ
  | false =>
    intro hc1
    rcases step_mounted_render w w1 e hc h with hflags | ⟨hl, hs, hp⟩
    · exact hflags
    · exfalso
      simp only [renderThrows, hl, hs, hp] at hc1
      simp only [renderThrows] at hc
      rw [hc] at hc1
      simp at hc1

theorem run_crash_flags (es : List Event) :
    ∀ (w w1 : World),
      (renderThrows w.app = true → w.app.searchLoading = false ∧ w.app.loading = false) →
      run w es = some w1 →
      renderThrows w1.app = true → w1.app.searchLoading = false ∧ w1.app.loading = false := by
  induction es with
  | nil =>
    intro w w1 hJ h
    simp [run] at h
    subst h
    exact hJ
  | cons e es ih =>
    intro w w1 hJ h
    simp only [run] at h
    cases hstep : step w e with
    | none => simp [hstep] at h
    | some w0 =>
      simp only [hstep] at h
      exact ih w0 w1 (step_crash_flags w w0 e hJ hstep) h

/-- Counterexample to C3 as stated: page 1 is displayed, the search is
submitted, and the answer has status 500 with a JSON object body that has
neither `servers` nor `pagination`.  The fetch has failed by a non-2xx
response with a body of the wrong shape, yet the list and the pagination are
replaced (by `undefined`). -/
theorem failed_list_fetch_counterexample :
    ∃ wAfter,
      run loadedWorld [Event.handleSearch, Event.listResponse 1 (FetchOutcome.json 500 errorBody)]
        = some wAfter ∧
      loadedWorld.app.servers = some [srvA, srvB, srvNoId] ∧
      wAfter.app.servers = none ∧
      wAfter.app.servers ≠ loadedWorld.app.servers ∧
      wAfter.app.pagination ≠ loadedWorld.app.pagination :=
  ⟨_, rfl, rfl, rfl, by decide, by decide⟩

/-- C3, amended: on a mounted component, a list fetch that fails by a
rejected `fetch` (network error), by a body that is not JSON, or by a JSON
`null` body leaves the list and the pagination exactly as they were just
before it completed, and `searchLoading` and `loading` are false afterwards;
when no other list response was applied since the fetch was issued, they are
also what they were before it was issued. -/
theorem failed_list_fetch_preserves (w w1 : World) (page : Int) (search : String)
    (es : List Event) (o : FetchOutcome ListData)
    (hmounted : renderThrows w.app = false)
    (hfail : o = FetchOutcome.rejected ∨ (∃ st, o = FetchOutcome.notJson st) ∨
      (∃ st, o = FetchOutcome.jsonNull st))
    (h : run (fetchServersStart w page search) (es ++ [Event.listResponse w.nextReq o]) = some w1) :
    ∃ w0, run (fetchServersStart w page search) es = some w0 ∧
      w1.app.servers = w0.app.servers ∧ w1.app.pagination = w0.app.pagination ∧
      w1.app.searchLoading = false ∧ w1.app.loading = false ∧
      (lastAppliedList es = none →
        w1.app.servers = w.app.servers ∧ w1.app.pagination = w.app.pagination) := by
  obtain ⟨w0, h0, h1⟩ := run_append_single es _ w1 _ h
  have hbody : listBody (Event.listResponse w.nextReq o) = none := by
    rcases hfail with hf | ⟨st, hf⟩ | ⟨st, hf⟩ <;> subst hf <;> rfl
  have hslots := step_no_body_slots w0 w1 _ hbody h1
  have hstart : renderThrows (fetchServersStart w page search).app = false := hmounted
  have hflags : w1.app.searchLoading = false ∧ w1.app.loading = false := by
    cases hc : renderThrows w0.app with
    | true =>
      have hJ := run_crash_flags es _ w0 (fun hx => by rw [hstart] at hx; simp at hx) h0 hc
      rw [step_unmounted_app w0 w1 _ hc h1]
      exact hJ
    | false =>
      rw [step_of_mounted w0 _ hc] at h1
      simp only [stepMounted] at h1
      split at h1
      · simp only [Option.some.injEq] at h1
        subst h1
        exact ⟨rfl, rfl⟩
      · simp at h1
  refine ⟨w0, h0, hslots.1, hslots.2, hflags.1, hflags.2, ?_⟩
  intro hquiet
  have hrun := run_no_body_slots es _ w0 hquiet h0
  rw [hslots.1, hslots.2, hrun.1, hrun.2]
  exact ⟨rfl, rfl⟩

/-- Witness of C3 (amended): page 1 is displayed, page 2 is requested and
the request is rejected; page 1 stays and the loading flags are cleared. -/
theorem failed_list_fetch_preserves_witness :
    renderThrows loadedWorld.app = false ∧
    ∃ w0, run (fetchServersStart loadedWorld 2 "") [] = some w0 ∧
      rejectedWorld.app.servers = w0.app.servers ∧
      rejectedWorld.app.pagination = w0.app.pagination ∧
      rejectedWorld.app.searchLoading = false ∧
      rejectedWorld.app.loading = false ∧
      (lastAppliedList [] = none →
        rejectedWorld.app.servers = loadedWorld.app.servers ∧
        rejectedWorld.app.pagination = loadedWorld.app.pagination) :=
  ⟨rfl, failed_list_fetch_preserves loadedWorld rejectedWorld 2 "" []
    FetchOutcome.rejected rfl (Or.inl rfl) rfl⟩

theorem step_pagination_invariant (w w1 : World) (e : Event)
    (hP : paginationInvariant w.app.pagination = true)
    (hok : ∀ d, listBody e = some d → paginationInvariant d.pagination = true)
    (h : step w e = some w1) : paginationInvariant w1.app.pagination = true := by
  cases hc : renderThrows w.app with
  | true =>
    rw [step_unmounted_app w w1 e hc h]
    exact hP
  | false =>
    have hs := (step_mounted_slots w w1 e hc h).2.1
    rw [hs]
    cases hb : listBody e with
    | none => simpa using hP
    | some d => simpa using hok d hb

theorem run_pagination_invariant (es : List Event) :
    ∀ (w w1 : World), paginationInvariant w.app.pagination = true →
      (∀ e ∈ es, ∀ d, listBody e = some d → paginationInvariant d.pagination = true) →
      run w es = some w1 → paginationInvariant w1.app.pagination = true := by
  induction es with
  | nil =>
    intro w w1 hP _ h
    simp [run] at h
    subst h
    exact hP
  | cons e es ih =>
    intro w w1 hP hok h
    simp only [run] at h
    cases hstep : step w e with
    | none => simp [hstep] at h
    | some w0 =>
      simp only [hstep] at h
      have h0 := step_pagination_invariant w w0 e hP
        (fun d hd => hok e (List.mem_cons_self e es) d hd) hstep
      exact ih w0 w1 h0 (fun x hx d hd => hok x (List.mem_cons_of_mem e hx) d hd) h

/-- Counterexample to C10 as stated: the answer `inconsistentPage` has the
expected shape and is accepted, and the stored pagination then has
`has_prev = true` on page 1 and `has_next = false` on page 1 of 3. -/
theorem pagination_invariant_counterexample :
    ∃ w, run World.init [Event.mount, Event.listResponse 0 (FetchOutcome.json 200 inconsistentPage)]
        = some w ∧
      w.app.pagination = some { current_page := some 1, total_pages := some 3,
                                has_prev := some true, has_next := some false } ∧
      paginationInvariant w.app.pagination = false :=
  ⟨_, rfl, rfl, by decide⟩

/-- C10, amended: the client stores the pagination of an accepted response
as received and checks nothing.  Start from a state with both list slots
defined; in every state reached after at least one list response with a
non-null JSON body has arrived, the stored pagination satisfies
`has_prev = (current_page > 1)` and `has_next = (current_page < total_pages)`
provided the pagination of every such response satisfied it. -/
theorem pagination_invariant_of_responses (es : List Event) :
    ∀ (w w1 : World), slotsDefined w.app = true →
      (∀ e ∈ es, ∀ d, listBody e = some d → paginationInvariant d.pagination = true) →
      (∃ e ∈ es, ∃ d, listBody e = some d) →
      run w es = some w1 → paginationInvariant w1.app.pagination = true := by
  induction es with
  | nil =>
    intro w w1 _ _ hacc _
    obtain ⟨e, he, _⟩ := hacc
    simp at he
  | cons e es ih =>
    intro w w1 hw hok hacc h
    simp only [run] at h
    cases hstep : step w e with
    | none => simp [hstep] at h
    | some w0 =>
      simp only [hstep] at h
      have hm := slotsDefined_not_throws w.app hw
      have hone := step_mounted_slots w w0 e hm hstep
      have hrest : ∀ x ∈ es, ∀ d, listBody x = some d → paginationInvariant d.pagination = true :=
        fun x hx d hd => hok x (List.mem_cons_of_mem e hx) d hd
      cases hb : listBody e with
      | some d =>
        have h0 : paginationInvariant w0.app.pagination = true := by
          rw [hone.2.1]
          simpa [hb] using hok e (List.mem_cons_self e es) d hb
        exact run_pagination_invariant es w0 w1 h0 hrest h
      | none =>
        simp only [hb] at hone
        have hw0 : slotsDefined w0.app = true := by
          simp only [slotsDefined, hone.1, hone.2.1]
          exact hw
        have hacc0 : ∃ x ∈ es, ∃ d, listBody x = some d := by
          obtain ⟨x, hx, d, hd⟩ := hacc
          rcases List.mem_cons.mp hx with hxe | hxs
          · subst hxe
            rw [hb] at hd
            simp at hd
          · exact ⟨x, hxs, d, hd⟩
        exact ih w0 w1 hw0 hrest hacc0 h

/-- Witness of C10 (amended): after `racedTrace` from `loadedWorld`, where
the answers for pages 3 and 2 both satisfy the invariant, the stored
pagination satisfies it. -/
theorem pagination_invariant_of_responses_witness :
    run loadedWorld racedTrace = some racedWorld ∧
    paginationInvariant racedWorld.app.pagination = true :=
  ⟨rfl, pagination_invariant_of_responses racedTrace loadedWorld racedWorld rfl
    (by
      intro e he d hd
      simp only [racedTrace, List.mem_cons, List.mem_singleton, List.not_mem_nil, or_false] at he
      rcases he with he | he | he | he <;> subst he <;> simp only [listBody] at hd
      · simp at hd
      · simp at hd
      · simp only [Option.some.injEq] at hd
        subst hd
        decide
      · simp only [Option.some.injEq] at hd
        subst hd
        decide)
    ⟨Event.listResponse 2 (FetchOutcome.json 200 page3),
      List.mem_cons_of_mem _ (List.mem_cons_of_mem _ (List.mem_cons_self _ _)), page3, rfl⟩
    rfl⟩

/-- Counterexample to C9 as stated: with page 1 of 3 displayed,
`handlePageChange(0)` is not a no-op: it sets the page to 0 and sends a
request with `page=0`. -/
theorem handlePageChange_out_of_range_counterexample :
    loadedWorld.app.pagination = page1.pagination ∧
    handlePageChange loadedWorld 0 ≠ loadedWorld ∧
    (handlePageChange loadedWorld 0).app.currentPage = 0 ∧
    (handlePageChange loadedWorld 0).listInFlight =
      [{ id := 1, params := [("page", "0"), ("limit", "5")] }] :=
  ⟨rfl, by decide, rfl, rfl⟩

/-- C9, amended: `handlePageChange(n)` does not validate `n`: for every state
and every `n` it sets the current page to `n` and issues one fetch for page
`n` with the current search text.  The range is restricted only by the
pagination controls: Previous cannot be clicked unless `has_prev` of the
stored pagination is true, and Next cannot be clicked unless `has_next` is
true. -/
theorem handlePageChange_unchecked (w : World) (n : Int) :
    (handlePageChange w n).app.currentPage = n ∧
    (handlePageChange w n).listInFlight =
      w.listInFlight ++ [{ id := w.nextReq, params := buildParams n w.app.searchQuery }] ∧
    (handlePageChange w n).app.searchLoading = true ∧
    (∀ p, w.app.pagination = some p → p.has_prev ≠ some true → clickPrevious w = none) ∧
    (∀ p, w.app.pagination = some p → p.has_next ≠ some true → clickNext w = none) := by
  refine ⟨rfl, rfl, rfl, ?_, ?_⟩
  · intro p hp hne
    simp [clickPrevious, prevEnabled, hp, hne]
  · intro p hp hne
    simp [clickNext, nextEnabled, hp, hne]

/-- Witness of C9 (amended): on page 1 of 3 the Previous button cannot be
clicked. -/
theorem handlePageChange_unchecked_witness :
    clickPrevious loadedWorld = none :=
  (handlePageChange_unchecked loadedWorld 0).2.2.2.1 _ rfl (by decide)

/-! ## The detail slot -/

theorem settle_serverDetails (a : AppState) (o : FetchOutcome Detail) :
    (fetchServerDetailsSettle a o).serverDetails = storedDetail o a.serverDetails ∧
    (fetchServerDetailsSettle a o).detailsLoading = false ∧
    (fetchServerDetailsSettle a o).selectedServer = a.selectedServer := by
  cases o <;> exact ⟨rfl, rfl, rfl⟩

theorem open_with_identity (w : World) (s : Server) (i : String)
    (hs : s.officialId = some i) (hi : i ≠ "") :
    openServerDetails w s =
      { w with
        app := { w.app with selectedServer := some s, detailsLoading := true }
        nextReq := w.nextReq + 1
        detailInFlight := w.detailInFlight ++ [{ id := w.nextReq, serverId := i }] } := by
  simp [openServerDetails, hs, hi, fetchServerDetailsStart]

theorem renderThrows_settle_detail (a : AppState) (o : FetchOutcome Detail) :
    renderThrows (fetchServerDetailsSettle a o) = renderThrows a := by
  cases o <;> rfl

theorem step_detailResponse (w : World) (req : Nat) (o : FetchOutcome Detail)
    (hm : renderThrows w.app = false)
    (hp : w.detailInFlight.any (fun r => r.id == req) = true) :
    step w (Event.detailResponse req o) =
      some { w with
        app := fetchServerDetailsSettle w.app o
        detailInFlight := w.detailInFlight.filter (fun r => r.id != req) } := by
  rw [step_of_mounted w _ hm]
  simp only [stepMounted, hp, if_true]

/-- Counterexample to C2 as stated: `srvA` is opened, then `srvB` before any
answer; the answer for `srvB` arrives first and the answer for `srvA` second.
The modal is on `srvB` and shows the detail of `srvA`. -/
theorem detail_supersession_counterexample :
    ∃ wOpen wFinal,
      run loadedWorld [Event.openServerDetails srvA, Event.openServerDetails srvB] = some wOpen ∧
      wOpen.detailInFlight = [{ id := 1, serverId := "id-a" }, { id := 2, serverId := "id-b" }] ∧
      run wOpen [Event.detailResponse 2 (FetchOutcome.json 200 detB),
                 Event.detailResponse 1 (FetchOutcome.json 200 detA)] = some wFinal ∧
      wFinal.app.selectedServer = some srvB ∧
      wFinal.app.serverDetails = some detA ∧
      modalBody wFinal.app = ModalBody.details detA ∧
      detA ≠ detB :=
  ⟨_, _, rfl, rfl, rfl, rfl, rfl, rfl, by decide⟩

/-- C2, amended: on a mounted component, when `openServerDetails(A)` is
followed by `openServerDetails(B)` before the answer for A, both requests
stay pending, the modal stays on B, and the stored detail is decided by the
arrival order alone: every answer that parses as JSON replaces it, a failed
answer leaves it.  So B's detail is stored when B's answer parses and arrives
last, and A's detail is stored when A's answer parses and arrives last, or
when it parses and B's answer fails. -/
theorem detail_last_arrival_wins (w : World) (a b : Server) (ida idb : String)
    (hmounted : renderThrows w.app = false)
    (ha : a.officialId = some ida) (hna : ida ≠ "")
    (hb : b.officialId = some idb) (hnb : idb ≠ "")
    (oa ob : FetchOutcome Detail) :
    (openServerDetails (openServerDetails w a) b).detailInFlight =
      w.detailInFlight ++ [{ id := w.nextReq, serverId := ida }, { id := w.nextReq + 1, serverId := idb }] ∧
    (∃ w3, run (openServerDetails (openServerDetails w a) b)
        [Event.detailResponse w.nextReq oa, Event.detailResponse (w.nextReq + 1) ob] = some w3 ∧
      w3.app.selectedServer = some b ∧ w3.app.detailsLoading = false ∧
      w3.app.serverDetails = storedDetail ob (storedDetail oa w.app.serverDetails)) ∧
    (∃ w3, run (openServerDetails (openServerDetails w a) b)
        [Event.detailResponse (w.nextReq + 1) ob, Event.detailResponse w.nextReq oa] = some w3 ∧
      w3.app.selectedServer = some b ∧ w3.app.detailsLoading = false ∧
      w3.app.serverDetails = storedDetail oa (storedDetail ob w.app.serverDetails)) := by
  rw [open_with_identity w a ida ha hna, open_with_identity _ b idb hb hnb]
  refine ⟨by simp, ?_, ?_⟩
  · simp only [run]
    rw [step_detailResponse]
    · simp only []
      rw [step_detailResponse]
      · simp [settle_serverDetails]
      · rw [renderThrows_settle_detail]
        exact hmounted
      · simp [List.filter_append]
    · exact hmounted
    · simp
  · simp only [run]
    rw [step_detailResponse]
    · simp only []
      rw [step_detailResponse]
      · simp [settle_serverDetails]
      · rw [renderThrows_settle_detail]
        exact hmounted
      · simp [List.filter_append]
    · exact hmounted
    · simp

/-- Witness of C2 (amended): from `loadedWorld`, open `srvA`, open `srvB`;
the answer for `srvA` arrives after the answer for `srvB` and is stored. -/
theorem detail_last_arrival_wins_witness :
    ∃ w3, run (openServerDetails (openServerDetails loadedWorld srvA) srvB)
        [Event.detailResponse (loadedWorld.nextReq + 1) (FetchOutcome.json 200 detB),
         Event.detailResponse loadedWorld.nextReq (FetchOutcome.json 200 detA)] = some w3 ∧
      w3.app.selectedServer = some srvB ∧ w3.app.detailsLoading = false ∧
      w3.app.serverDetails =
        storedDetail (FetchOutcome.json 200 detA)
          (storedDetail (FetchOutcome.json 200 detB) loadedWorld.app.serverDetails) :=
  (detail_last_arrival_wins loadedWorld srvA srvB "id-a" "id-b" rfl rfl (by decide) rfl (by decide)
    (FetchOutcome.json 200 detA) (FetchOutcome.json 200 detB)).2.2

/-- Counterexample to C6 as stated: `srvA` is opened and closed while its
detail fetch is outstanding.  The answer arrives after the close and is
stored although the modal is closed; when `srvA` is opened again and the new
fetch fails, the modal shows that detail, which answers the request issued
before the close. -/
theorem close_discards_counterexample :
    ∃ wClosed wLate wFinal,
      run loadedWorld [Event.openServerDetails srvA, Event.closeServerDetails] = some wClosed ∧
      wClosed.app.serverDetails = none ∧
      wClosed.detailInFlight = [{ id := 1, serverId := "id-a" }] ∧
      step wClosed (Event.detailResponse 1 (FetchOutcome.json 200 detA)) = some wLate ∧
      wLate.app.selectedServer = none ∧
      wLate.app.serverDetails = some detA ∧
      run wLate [Event.openServerDetails srvA, Event.detailResponse 2 FetchOutcome.rejected]
        = some wFinal ∧
      modalBody wFinal.app = ModalBody.details detA :=
  ⟨_, _, _, rfl, rfl, rfl, rfl, rfl, rfl, rfl, rfl⟩

/-- C6, amended: on a mounted component, `closeServerDetails` sets
`selectedServer` and `serverDetails` to `null` at once, and a following open
of an entry with an identity issues a new detail fetch for that identity,
with nothing stored until an answer arrives.  A detail fetch outstanding at
the close is not cancelled: it stays pending, and when its answer arrives
with a JSON document the document is stored although the modal is closed. -/
theorem close_then_reopen (w : World) (s : Server) (i : String)
    (hmounted : renderThrows w.app = false)
    (hs : s.officialId = some i) (hi : i ≠ "") :
    (closeServerDetails w).app.selectedServer = none ∧
    (closeServerDetails w).app.serverDetails = none ∧
    (closeServerDetails w).detailInFlight = w.detailInFlight ∧
    (openServerDetails (closeServerDetails w) s).detailInFlight =
      w.detailInFlight ++ [{ id := w.nextReq, serverId := i }] ∧
    (openServerDetails (closeServerDetails w) s).app.detailsLoading = true ∧
    (openServerDetails (closeServerDetails w) s).app.selectedServer = some s ∧
    (openServerDetails (closeServerDetails w) s).app.serverDetails = none ∧
    (∀ r ∈ w.detailInFlight, ∀ (st : Nat) (d : Detail),
      ∃ w3, step (closeServerDetails w) (Event.detailResponse r.id (FetchOutcome.json st d)) = some w3 ∧
        w3.app.selectedServer = none ∧ w3.app.serverDetails = some d) := by
  refine ⟨rfl, rfl, rfl, ?_, ?_, ?_, ?_, ?_⟩
  · rw [open_with_identity _ s i hs hi]
    rfl
  · rw [open_with_identity _ s i hs hi]
  · rw [open_with_identity _ s i hs hi]
  · rw [open_with_identity _ s i hs hi]
    rfl
  · intro r hr st d
    have hany : (closeServerDetails w).detailInFlight.any (fun x => x.id == r.id) = true := by
      simp only [closeServerDetails, List.any_eq_true]
      exact ⟨r, hr, by simp⟩
    have hm : renderThrows (closeServerDetails w).app = false := hmounted
    rw [step_detailResponse _ _ _ hm hany]
    exact ⟨_, rfl, rfl, rfl⟩

/-- Witness of C6 (amended): `srvA` is open with its fetch outstanding; close
and reopen issue request 2 for `id-a` next to the pending request 1. -/
theorem close_then_reopen_witness :
    (openServerDetails (closeServerDetails (openServerDetails loadedWorld srvA)) srvA).detailInFlight =
      (openServerDetails loadedWorld srvA).detailInFlight ++
        [{ id := (openServerDetails loadedWorld srvA).nextReq, serverId := "id-a" }] :=
  (close_then_reopen (openServerDetails loadedWorld srvA) srvA "id-a" rfl rfl (by decide)).2.2.2.1

/-- Counterexample to C7 as stated: opening `srvA` and having its detail
fetch rejected leaves the same detail state (`serverDetails = null`,
`detailsLoading = false`) as opening `srvNoId`, for which no fetch is issued;
the modal body is the same in both cases. -/
theorem detail_failure_marker_counterexample :
    ∃ wFailed,
      run loadedWorld [Event.openServerDetails srvA, Event.detailResponse 1 FetchOutcome.rejected]
        = some wFailed ∧
      (openServerDetails loadedWorld srvNoId).detailInFlight = [] ∧
      wFailed.app.serverDetails = (openServerDetails loadedWorld srvNoId).app.serverDetails ∧
      wFailed.app.detailsLoading = (openServerDetails loadedWorld srvNoId).app.detailsLoading ∧
      modalBody wFailed.app = modalBody (openServerDetails loadedWorld srvNoId).app ∧
      modalBody wFailed.app = ModalBody.failedMessage :=
  ⟨_, rfl, rfl, rfl, rfl, rfl, rfl⟩

/-- C7, amended: on a mounted component, a detail fetch that fails (rejected
`fetch` or a body that is not JSON) clears `detailsLoading` and leaves
`serverDetails` as it was, whichever pending request it answers; opening an
entry without an identity only sets `selectedServer`: it issues no fetch and
leaves `serverDetails` and `detailsLoading` as they were.  Hence, started
from a state with `serverDetails = null` and `detailsLoading = false`, the
failed fetch of an entry with an identity and the open of an entry without
one end with the same `serverDetails` and `detailsLoading`, and the modal
shows the same failure message: the stored state does not tell the two cases
apart. -/
theorem detail_failure_same_as_summary_only (w : World) (a s0 : Server) (i : String)
    (o : FetchOutcome Detail)
    (hmounted : renderThrows w.app = false)
    (ha : a.officialId = some i) (hi : i ≠ "")
    (h0 : truthy s0.officialId = false)
    (hfail : o = FetchOutcome.rejected ∨ ∃ st, o = FetchOutcome.notJson st) :
    openServerDetails w s0 = { w with app := { w.app with selectedServer := some s0 } } ∧
    (∀ r ∈ w.detailInFlight,
      ∃ w1, step w (Event.detailResponse r.id o) = some w1 ∧
        w1.app.serverDetails = w.app.serverDetails ∧ w1.app.detailsLoading = false) ∧
    (∃ w1, run w [Event.openServerDetails a, Event.detailResponse w.nextReq o] = some w1 ∧
      w1.app.selectedServer = some a ∧
      w1.app.serverDetails = w.app.serverDetails ∧
      w1.app.detailsLoading = false ∧
      (w.app.serverDetails = none → w.app.detailsLoading = false →
        w1.app.serverDetails = (openServerDetails w s0).app.serverDetails ∧
        w1.app.detailsLoading = (openServerDetails w s0).app.detailsLoading ∧
        modalBody w1.app = ModalBody.failedMessage ∧
        modalBody (openServerDetails w s0).app = ModalBody.failedMessage)) := by
  have hopen0 : openServerDetails w s0 = { w with app := { w.app with selectedServer := some s0 } } := by
    unfold openServerDetails
    cases hs : s0.officialId with
    | none => rfl
    | some j =>
      have hj : j = "" := by simpa [truthy, hs] using h0
      simp [hj]
  have hstored : ∀ prev, storedDetail o prev = prev := by
    intro prev
    rcases hfail with hf | ⟨st, hf⟩ <;> subst hf <;> rfl
  refine ⟨hopen0, ?_, ?_⟩
  · intro r hr
    have hany : w.detailInFlight.any (fun x => x.id == r.id) = true := by
      simp only [List.any_eq_true]
      exact ⟨r, hr, by simp⟩
    rw [step_detailResponse w _ _ hmounted hany]
    refine ⟨_, rfl, ?_, ?_⟩
    · rw [(settle_serverDetails w.app o).1, hstored]
    · exact (settle_serverDetails w.app o).2.1
  · simp only [run]
    rw [step_of_mounted w _ hmounted]
    simp only [stepMounted]
    rw [open_with_identity w a i ha hi]
    have hm1 : renderThrows ({ w with
        app := { w.app with selectedServer := some a, detailsLoading := true }
        nextReq := w.nextReq + 1
        detailInFlight := w.detailInFlight ++ [{ id := w.nextReq, serverId := i }] } : World).app
        = false := hmounted
    rw [step_detailResponse _ _ _ hm1 (by simp)]
    refine ⟨_, rfl, ?_, ?_, ?_, ?_⟩
    · rw [(settle_serverDetails _ o).2.2]
    · rw [(settle_serverDetails _ o).1, hstored]
    · exact (settle_serverDetails _ o).2.1
    · intro hnone hidle
      rw [hopen0]
      refine ⟨?_, ?_, ?_, ?_⟩
      · rw [(settle_serverDetails _ o).1, hstored]
      · rw [(settle_serverDetails _ o).2.1]
        exact hidle.symm
      · simp [modalBody, settle_serverDetails, hstored, hnone]
      · simp [modalBody, hnone, hidle]

/-- Witness of C7 (amended): from `loadedWorld`, the rejected detail fetch of
`srvA` leaves `serverDetails` as it was and ends in the detail state also
reached by opening `srvNoId`. -/
theorem detail_failure_same_as_summary_only_witness :
    ∃ w1, run loadedWorld [Event.openServerDetails srvA,
        Event.detailResponse loadedWorld.nextReq FetchOutcome.rejected] = some w1 ∧
      w1.app.selectedServer = some srvA ∧
      w1.app.serverDetails = loadedWorld.app.serverDetails ∧
      w1.app.detailsLoading = false ∧
      (loadedWorld.app.serverDetails = none → loadedWorld.app.detailsLoading = false →
        w1.app.serverDetails = (openServerDetails loadedWorld srvNoId).app.serverDetails ∧
        w1.app.detailsLoading = (openServerDetails loadedWorld srvNoId).app.detailsLoading ∧
        modalBody w1.app = ModalBody.failedMessage ∧
        modalBody (openServerDetails loadedWorld srvNoId).app = ModalBody.failedMessage) :=
  (detail_failure_same_as_summary_only loadedWorld srvA srvNoId "id-a" FetchOutcome.rejected
    rfl rfl (by decide) rfl (Or.inl rfl)).2.2

end MCPRegistry
